import Mathlib

/-!
Shallow embedding of the playlist-fetching script (`js/youtube-api.js`, here
`src/unnamed/part_000`) and its configuration file (`src/js/config.js`).

Strings are modelled as `List Char` in the core definitions (with `String`
wrappers), network I/O as an explicit script of responses consumed in the
order the code issues requests, and a JavaScript `throw` as an `Except`
error value.  A function that can fail to terminate on the supplied response
script returns `Option` (`none` = the loop requested a response beyond the
script).
-/

namespace Ebo

/-! ### JavaScript string helpers -/

/-- The ECMAScript whitespace characters recognised by `String.prototype.trim`
(the ASCII ones plus NBSP, LS, PS and BOM; the exotic Zs code points are
included for completeness of the model). -/
def jsWhitespace (c : Char) : Bool :=
  c = ' ' ∨ c = '\t' ∨ c = '\n' ∨ c = '\x0b' ∨ c = '\x0c' ∨ c = '\r' ∨
  c = ' ' ∨ c = ' ' ∨ (' ' ≤ c ∧ c ≤ ' ') ∨
  c = ' ' ∨ c = ' ' ∨ c = ' ' ∨ c = ' ' ∨
  c = '　' ∨ c = '﻿'

/-- JavaScript `s.trimStart()`: drop the leading whitespace. -/
def jsTrimStart (cs : List Char) : List Char := cs.dropWhile jsWhitespace

/-- JavaScript `s.trimEnd()`: drop the trailing whitespace. -/
def jsTrimEnd (cs : List Char) : List Char :=
  (cs.reverse.dropWhile jsWhitespace).reverse

/-- JavaScript `s.trim()`: drop whitespace at both ends. -/
def jsTrim (cs : List Char) : List Char := jsTrimEnd (jsTrimStart cs)

/-- JavaScript `s.padStart(2, '0')`: left-pad with the zero digit up to length 2. -/
def padStart2 (cs : List Char) : List Char :=
  if cs.length ≥ 2 then cs else List.replicate (2 - cs.length) '0' ++ cs

/-- JavaScript `s.replace(c, '')` for a single-character pattern: remove the
first occurrence of `c`, if any. -/
def replaceFirst (c : Char) : List Char → List Char
  | [] => []
  | x :: xs => if x = c then xs else x :: replaceFirst c xs

/-- JavaScript `a || b` on a possibly-absent string: an absent or empty
string is falsy. -/
def jsOrStr (a : Option String) (b : String) : String :=
  match a with
  | none => b
  | some s => if s = "" then b else s

/-- JavaScript `a || b` where both operands are possibly-absent strings
(used for `thumbnails.high?.url || thumbnails.medium?.url`). -/
def jsOrOpt (a b : Option String) : Option String :=
  match a with
  | none => b
  | some s => if s = "" then b else some s

/-! ### `formatDuration` (source lines 20–31)

```js
function formatDuration(duration) {
    const match = duration.match(/PT(\d+H)?(\d+M)?(\d+S)?/);
    const hours = (match[1] || '').replace('H', '');
    const minutes = (match[2] || '').replace('M', '');
    const seconds = (match[3] || '').replace('S', '');
    if (hours) {
        return `${hours}:${minutes.padStart(2, '0')}:${seconds.padStart(2, '0')}`;
    }
    return `${minutes || '0'}:${seconds.padStart(2, '0')}`;
}
```

The regular expression `/PT(\d+H)?(\d+M)?(\d+S)?/` succeeds at the leftmost
position where the literal `PT` occurs (all three groups are optional, so
once `PT` matches the whole pattern matches).  Each group `(\d+U)?`
captures a maximal nonempty digit run followed by the unit letter `U`, or
is left undefined without consuming input.  When `match` is `null` —
exactly when the input does not contain `PT` — `match[1]` throws, which the
model renders as `none`. -/

/-- One optional regex group `(\d+U)?` at the current position: returns the
captured text (digits plus the unit letter) and the remaining input, or
leaves the input untouched. -/
def optGroup (unit : Char) (cs : List Char) : Option (List Char) × List Char :=
  let ds := cs.takeWhile Char.isDigit
  let rest := cs.dropWhile Char.isDigit
  match rest with
  | u :: rest' => if u = unit ∧ ds ≠ [] then (some (ds ++ [u]), rest') else (none, cs)
  | [] => (none, cs)

/-- Scan for the leftmost occurrence of the literal `PT` (the regex engine
tries the pattern at index 0, 1, …; at a given index it succeeds exactly
when the current character is `P` and the next one is `T`); return the
input past the `PT`, or `none` when the input contains no `PT`. -/
def findPT : List Char → Option (List Char)
  | [] => none
  | c :: rest =>
    if c = 'P' ∧ rest.head? = some 'T' then some rest.tail else findPT rest

/-- The three capture groups of `/PT(\d+H)?(\d+M)?(\d+S)?/`:
`none` = no match at all (input without `PT`). -/
def matchDuration (cs : List Char) : Option (Option (List Char) × Option (List Char) × Option (List Char)) :=
  (findPT cs).map fun rest =>
    let (g1, r1) := optGroup 'H' rest
    let (g2, r2) := optGroup 'M' r1
    let (g3, _) := optGroup 'S' r2
    (g1, g2, g3)

/-- The function `formatDuration` on character lists; `none` models the `TypeError`
thrown when the regex does not match (`match` is `null`). -/
def formatDurationL (duration : List Char) : Option (List Char) :=
  (matchDuration duration).map fun m =>
    let hours := replaceFirst 'H' (m.1.getD [])
    let minutes := replaceFirst 'M' (m.2.1.getD [])
    let seconds := replaceFirst 'S' (m.2.2.getD [])
    if hours ≠ [] then
      hours ++ ':' :: padStart2 minutes ++ ':' :: padStart2 seconds
    else
      (if minutes ≠ [] then minutes else ['0']) ++ ':' :: padStart2 seconds

/-- The function `formatDuration` on `String`. -/
def formatDuration (duration : String) : Option String :=
  (formatDurationL duration.data).map List.asString

example : formatDuration "PT2H15M33S" = some "2:15:33" := by decide
example : formatDuration "PT15M33S" = some "15:33" := by decide
example : formatDuration "PT33S" = some "0:33" := by decide
example : formatDuration "PT0S" = some "0:00" := by decide
example : formatDuration "PT1H2S" = some "1:00:02" := by decide
example : formatDuration "nope" = none := by decide

/-! ### `truncateText` (source lines 50–53)

```js
function truncateText(text, maxLength) {
    if (text.length <= maxLength) return text;
    return text.substring(0, maxLength).trim() + '...';
}
```

Note that JavaScript `trim()` removes whitespace at *both* ends. -/

/-- The function `truncateText` on character lists. -/
def truncateTextL (text : List Char) (maxLength : Nat) : List Char :=
  if text.length ≤ maxLength then text
  else jsTrim (text.take maxLength) ++ ['.', '.', '.']

/-- The function `truncateText` on `String`. -/
def truncateText (text : String) (maxLength : Nat) : String :=
  (truncateTextL text.data maxLength).asString

example : truncateText "hello" 10 = "hello" := by decide
example : truncateText "hello world" 6 = "hello..." := by decide
example : truncateText " abcd" 3 = "ab..." := by decide

/-- A truncation that trims only trailing whitespace from the cut text, as
the specification describes it ("cuts to that length, trims trailing
whitespace, appends an ellipsis marker"); to be compared with the source's
`truncateTextL`. -/
def truncateTextTrailingOnly (text : List Char) (maxLength : Nat) : List Char :=
  if text.length ≤ maxLength then text
  else jsTrimEnd (text.take maxLength) ++ ['.', '.', '.']

/-! ### Data model of the two API responses

A membership record (`playlistItems` response item): the fields the script
reads are `contentDetails.videoId`, `snippet.title`, `snippet.description`,
`snippet.thumbnails.high?.url`, `snippet.thumbnails.medium?.url` and
`snippet.publishedAt`. -/

structure Snippet where
  title : String
  description : String
  thumbnailHighUrl : Option String
  thumbnailMediumUrl : Option String
  publishedAt : String
  deriving Repr, DecidableEq

structure PlaylistItem where
  videoId : String
  snippet : Snippet
  deriving Repr, DecidableEq

/-- One page of the `playlistItems` endpoint, i.e. one `fetch` response of
the pagination loop: HTTP status information plus the parsed JSON body
(`items` and the optional `nextPageToken`). -/
structure PageResp where
  ok : Bool
  status : Nat
  statusText : String
  items : List PlaylistItem
  nextPageToken : Option String
  deriving Repr, DecidableEq

/-- One detail record (`videos` response item): `id`,
`contentDetails.duration` and `statistics.viewCount`; the optional-chaining
reads `videoDetails?.contentDetails?.duration` and
`videoDetails?.statistics?.viewCount` are flattened to `Option String`. -/
structure VideoDetail where
  id : String
  duration : Option String
  viewCount : Option String
  deriving Repr, DecidableEq

/-- The single `videos` batch response. -/
structure DetailResp where
  ok : Bool
  status : Nat
  items : List VideoDetail
  deriving Repr, DecidableEq

/-- The enriched video object built at source lines 96–104. -/
structure EnrichedVideo where
  id : String
  title : String
  description : String
  thumbnail : Option String
  publishedAt : String
  duration : String
  viewCount : String
  deriving Repr, DecidableEq

/-- An error thrown by `fetchPlaylistVideos`: either the membership page
request failed (`throw new Error(\x7bstatus\x7d \x7bstatusText\x7d)`, line 72) or the
batch detail request failed (line 88).  Both carry the HTTP status. -/
inductive FetchError where
  | playlistFetch (status : Nat) (statusText : String)
  | videoDetailsFetch (status : Nat)
  deriving Repr, DecidableEq

/-- The HTTP status carried by a `FetchError`. -/
def FetchError.httpStatus : FetchError → Nat
  | .playlistFetch s _ => s
  | .videoDetailsFetch s => s

/-- The `message` of the thrown `Error`. -/
def FetchError.message : FetchError → String
  | .playlistFetch s t => "Error al obtener la playlist: " ++ toString s ++ " " ++ t
  | .videoDetailsFetch s => "Error al obtener detalles de vídeos: " ++ toString s

/-! ### The pagination loop (source lines 59–79)

The network is modelled by the script of responses in the order the loop's
requests receive them.  The loop appends `data.items` to the accumulator and
continues while `data.nextPageToken || ''` is truthy. -/

/-- Result of the `do … while (nextPageToken)` loop: the thrown error or the
accumulated items, the number of page requests issued, and the part of the
response script the loop never requested. -/
structure PagResult where
  outcome : Except FetchError (List PlaylistItem)
  calls : Nat
  leftover : List PageResp
  deriving Repr

/-- The pagination loop itself, consuming the response script one response
per iteration; `none` = the loop asked for yet another page beyond the
script (it would still be running). -/
def paginationLoop (acc : List PlaylistItem) : List PageResp → Option PagResult
  | [] => none
  | p :: rest =>
    if p.ok = false then
      some ⟨.error (.playlistFetch p.status p.statusText), 1, rest⟩
    else
      let acc' := acc ++ p.items
      if jsOrStr p.nextPageToken "" = "" then some ⟨.ok acc', 1, rest⟩
      else (paginationLoop acc' rest).map fun r => ⟨r.outcome, r.calls + 1, r.leftover⟩

/-! ### The join (source lines 94–105) -/

/-- The body of `allVideos.map(item => …)`: look the item's video up in the
batch detail response (`videosData.items.find(v => v.id === …)`) and build
the enriched object, defaulting `duration` to `'PT0S'` and `viewCount` to
`'0'` through `||`. -/
def enrichItem (details : List VideoDetail) (item : PlaylistItem) : EnrichedVideo :=
  let videoDetails := details.find? fun v => v.id = item.videoId
  { id := item.videoId
    title := item.snippet.title
    description := item.snippet.description
    thumbnail := jsOrOpt item.snippet.thumbnailHighUrl item.snippet.thumbnailMediumUrl
    publishedAt := item.snippet.publishedAt
    duration := jsOrStr (videoDetails.bind (·.duration)) "PT0S"
    viewCount := jsOrStr (videoDetails.bind (·.viewCount)) "0" }

/-- The join `videosWithDetails = allVideos.map(item => …)`. -/
def joinDetails (details : List VideoDetail) (allVideos : List PlaylistItem) : List EnrichedVideo :=
  allVideos.map (enrichItem details)

/-! ### `fetchPlaylistVideos` (source lines 59–113) -/

/-- The whole of `fetchPlaylistVideos`: run the pagination loop against the
page-response script, then issue the single batch detail request and join.
Returns the thrown error or the enriched list, paired with the total number
of network requests issued; `none` = the pagination loop outran the
script. -/
def fetchPlaylistVideos (script : List PageResp) (detail : DetailResp) :
    Option (Except FetchError (List EnrichedVideo) × Nat) :=
  match paginationLoop [] script with
  | none => none
  | some r =>
    match r.outcome with
    | .error e => some (.error e, r.calls)
    | .ok allVideos =>
      if detail.ok = false then
        some (.error (.videoDetailsFetch detail.status), r.calls + 1)
      else
        some (.ok (joinDetails detail.items allVideos), r.calls + 1)

/-! ### `createVideoCard` (source lines 120–147) and `renderVideos` (188–209)

`formatPublishedDate` (lines 38–42) delegates to `Date` plus
`toLocaleDateString('es-ES', …)`, and the views label to
`parseInt(…).toLocaleString('es-ES')`; both are locale/engine functions with
no algorithmic content in the repository, so the card builder is
parameterised by them (`dateFmt`, `viewsFmt`). -/

/-- The data `createVideoCard` interpolates into its HTML template. -/
structure VideoCard where
  href : String
  thumbnailUrl : Option String
  title : String
  durationLabel : String
  descriptionLabel : String
  viewsLabel : String
  dateLabel : String
  deriving Repr, DecidableEq

/-- The card builder `createVideoCard`: `none` models the `TypeError` thrown by
`formatDuration` on a duration the regex does not match. -/
def createVideoCard (dateFmt viewsFmt : String → String) (video : EnrichedVideo) :
    Option VideoCard :=
  (formatDuration video.duration).map fun formattedDuration =>
    { href := "https://www.youtube.com/watch?v=" ++ video.id
      thumbnailUrl := video.thumbnail
      title := video.title
      durationLabel := formattedDuration
      descriptionLabel := truncateText video.description 120
      viewsLabel := viewsFmt video.viewCount
      dateLabel := dateFmt video.publishedAt }

/-- What `renderVideos` writes into `.videos-grid`. -/
inductive GridContent where
  | noVideosMessage
  | cards (cards : List VideoCard)
  deriving Repr, DecidableEq

/-- The rendering outcome: the grid content and the text written to the
`.videos-note` element (`none` = the early return skipped that update). -/
structure RenderResult where
  grid : GridContent
  videosNote : Option String
  deriving Repr, DecidableEq

/-- The summary label of line 207:
``\x7bvideos.length\x7d vídeo\x7bvideos.length !== 1 ? 's' : ''\x7d en esta lista…``. -/
def videosNoteText (n : Nat) : String :=
  toString n ++ " vídeo" ++ (if n ≠ 1 then "s" else "") ++
    " en esta lista de reproducción."

/-- The renderer `renderVideos`: the empty-list early return shows the "no videos found"
message and never touches the note; otherwise one card per video, in order,
and the counter is updated.  `none` models an uncaught card-construction
`TypeError`. -/
def renderVideos (dateFmt viewsFmt : String → String) (videos : List EnrichedVideo) :
    Option RenderResult :=
  if videos.length = 0 then some ⟨.noVideosMessage, none⟩
  else
    (videos.mapM (createVideoCard dateFmt viewsFmt)).map fun cards =>
      ⟨.cards cards, some (videosNoteText videos.length)⟩

/-! ### `showError` (source lines 166–182) and `initializePlaylist` (214–239) -/

/-- The error state rendered by `showError`: the message and, when
`window.YOUTUBE_PLAYLIST_ID` is truthy, the fallback "Ver en YouTube"
link. -/
structure ErrorView where
  message : String
  fallbackLink : Option String
  deriving Repr, DecidableEq

/-- The call `showError(message)` with the ambient playlist id. -/
def showErrorView (message : String) (playlistId : Option String) : ErrorView :=
  { message := message
    fallbackLink :=
      if jsOrStr playlistId "" = "" then none
      else some ("https://www.youtube.com/playlist?list=" ++ jsOrStr playlistId "") }

/-- The file `src/js/config.js` declares `CONFIG` with the single property
`YOUTUBE_API_KEY`; the property is optional so that a missing or
empty value (both falsy) can be expressed. -/
structure Config where
  YOUTUBE_API_KEY : Option String
  deriving Repr, DecidableEq

/-- The placeholder credential shipped in `src/js/config.js`
(`YOUTUBE_API_KEY: 'TU_API_KEY_AQUI'`). -/
def placeholderApiKey : String := "TU_API_KEY_AQUI"

/-- The `CONFIG` value of the checked-in `src/js/config.js`. -/
def CONFIG : Config := { YOUTUBE_API_KEY := some placeholderApiKey }

/-- The ambient state `initializePlaylist` runs against: the possibly
undefined `CONFIG`, the possibly undefined `window.YOUTUBE_PLAYLIST_ID`,
and the network (the page-response script and the detail response). -/
structure Env where
  config : Option Config
  playlistId : Option String
  script : List PageResp
  detail : DetailResp

/-- The `showError` message of line 217 (configuration file missing). -/
def configMissingMsg : String :=
  "⚠️ Archivo de configuración no encontrado. Por favor, crea el archivo js/config.js basándote en config.example.js"

/-- The `showError` message of line 222 (API key missing or placeholder). -/
def apiKeyMissingMsg : String :=
  "⚠️ API Key no configurada. Por favor, configura tu API key de YouTube en el archivo js/config.js"

/-- The `showError` message of line 227 (playlist id missing). -/
def playlistIdMissingMsg : String :=
  "⚠️ ID de lista de reproducción no definido. Por favor define window.YOUTUBE_PLAYLIST_ID en el HTML antes de cargar este script."

/-- The `message` of the `TypeError` raised by `match[1]` on a `null`
match; the exact text is engine-specific (this is V8's), and no theorem
depends on it. -/
def typeErrorMessage : String := "Cannot read properties of null (reading '1')"

/-- The final UI state produced by one run of `initializePlaylist` (the
transient loading state is not recorded). -/
inductive UIState where
  | errorShown (view : ErrorView)
  | videosShown (r : RenderResult)
  deriving Repr, DecidableEq

/-- The entry point `initializePlaylist`: validate the three preconditions, then fetch and
render inside `try \x7b … \x7d catch`.  Returns the final UI state together with
the number of network requests issued; `none` = the pagination loop outran
the response script. -/
def initializePlaylist (dateFmt viewsFmt : String → String) (env : Env) :
    Option (UIState × Nat) :=
  match env.config with
  | none => some (.errorShown (showErrorView configMissingMsg env.playlistId), 0)
  | some cfg =>
    if jsOrStr cfg.YOUTUBE_API_KEY "" = "" ∨ cfg.YOUTUBE_API_KEY = some placeholderApiKey then
      some (.errorShown (showErrorView apiKeyMissingMsg env.playlistId), 0)
    else if jsOrStr env.playlistId "" = "" then
      some (.errorShown (showErrorView playlistIdMissingMsg env.playlistId), 0)
    else
      match fetchPlaylistVideos env.script env.detail with
      | none => none
      | some (.error e, n) =>
        some (.errorShown
          (showErrorView ("Error al cargar los vídeos de YouTube. " ++ e.message) env.playlistId), n)
      | some (.ok videos, n) =>
        match renderVideos dateFmt viewsFmt videos with
        | some r => some (.videosShown r, n)
        | none =>
          some (.errorShown
            (showErrorView ("Error al cargar los vídeos de YouTube. " ++ typeErrorMessage) env.playlistId), n)

/-! ### Auxiliary specification-level definitions -/

/-- The character list contains the literal `PT` as a contiguous substring
(declarative counterpart of what the regex scan `findPT` searches for). -/
def containsPT (cs : List Char) : Prop :=
  ∃ l r : List Char, cs = l ++ 'P' :: 'T' :: r

/-- One optional component of a compact duration encoding: the digits
followed by the unit letter, or nothing. -/
def optComp (unit : Char) : Option (List Char) → List Char
  | none => []
  | some d => d ++ [unit]

/-- A compact duration encoding with optional hours/minutes/seconds
components, e.g. `encodeDuration (some ['2']) (some ['1','5']) (some ['3','3'])`
is `PT2H15M33S`. -/
def encodeDuration (h m s : Option (List Char)) : List Char :=
  'P' :: 'T' :: (optComp 'H' h ++ optComp 'M' m ++ optComp 'S' s)

/-- A well-formed duration component: absent, or a nonempty digit string. -/
def wfComp (o : Option (List Char)) : Prop :=
  ∀ d, o = some d → d ≠ [] ∧ ∀ c ∈ d, Char.isDigit c = true

/-! ### Concrete sample data (used by the witness theorems) -/

def sampleSnippet : Snippet :=
  { title := "Título", description := "Descripción", thumbnailHighUrl := some "https://img/hq.jpg"
    thumbnailMediumUrl := some "https://img/mq.jpg", publishedAt := "2024-01-01T00:00:00Z" }

def sampleItem : PlaylistItem := { videoId := "vid1", snippet := sampleSnippet }

def sampleItem2 : PlaylistItem := { videoId := "vid2", snippet := sampleSnippet }

def sampleItem3 : PlaylistItem := { videoId := "vid3", snippet := sampleSnippet }

def sampleDetail : VideoDetail :=
  { id := "vid1", duration := some "PT1M2S", viewCount := some "123" }

def samplePageMid : PageResp :=
  { ok := true, status := 200, statusText := "OK", items := [sampleItem, sampleItem2]
    nextPageToken := some "tok1" }

def samplePageLast : PageResp :=
  { ok := true, status := 200, statusText := "OK", items := [sampleItem3]
    nextPageToken := none }

def samplePageFail : PageResp :=
  { ok := false, status := 404, statusText := "Not Found", items := [], nextPageToken := none }

def sampleDetailResp : DetailResp := { ok := true, status := 200, items := [sampleDetail] }

def sampleDetailFail : DetailResp := { ok := false, status := 500, items := [] }

def sampleEnriched (i d : String) : EnrichedVideo :=
  { id := i, title := "T", description := "D", thumbnail := none
    publishedAt := "2024-01-01T00:00:00Z", duration := d, viewCount := "10" }

def sampleVideos3 : List EnrichedVideo :=
  [sampleEnriched "a" "PT1M2S", sampleEnriched "b" "PT2S", sampleEnriched "c" "PT1H"]

def sampleEnv : Env :=
  { config := some CONFIG, playlistId := some "PL123"
    script := [samplePageLast], detail := sampleDetailResp }

/-! ## Theorems -/

/-- C2: the join step is a per-record map, so the output sequence of
enriched videos has exactly the same length as the membership input, and
the record at every position `i` of the output is the enrichment of the
membership record at position `i` — no drops, no duplicates, no
reordering, whatever the coverage of the detail response. -/
theorem C2_join_preserves_length_and_order (details : List VideoDetail)
    (allVideos : List PlaylistItem) :
    (joinDetails details allVideos).length = allVideos.length ∧
    ∀ i : Nat, (joinDetails details allVideos)[i]? =
      Option.map (enrichItem details) allVideos[i]? := by
  refine ⟨?_, fun i => ?_⟩
  · simp [joinDetails]
  · simp [joinDetails, List.getElem?_map]

/-- C3: a membership record whose content id matches no record of the batch
detail response still yields an enriched video at its original position,
with duration defaulted to `PT0S` and view count defaulted to `"0"`. -/
theorem C3_missing_detail_gets_defaults (details : List VideoDetail)
    (allVideos : List PlaylistItem) (i : Nat) (item : PlaylistItem)
    (hi : allVideos[i]? = some item)
    (hmiss : ∀ v ∈ details, v.id ≠ item.videoId) :
    (joinDetails details allVideos)[i]? = some (enrichItem details item) ∧
    (enrichItem details item).duration = "PT0S" ∧
    (enrichItem details item).viewCount = "0" := by
  have hfind : details.find? (fun v => v.id = item.videoId) = none := by
    rw [List.find?_eq_none]
    intro v hv
    simpa using hmiss v hv
  refine ⟨?_, ?_, ?_⟩
  · simp [joinDetails, List.getElem?_map, hi]
  · simp [enrichItem, hfind, jsOrStr]
  · simp [enrichItem, hfind, jsOrStr]

/-- Witness for C3 at a concrete input: one detail record for `vid1`, one
membership record for `vid2`. -/
theorem C3_witness :
    (joinDetails [sampleDetail] [sampleItem2])[0]? =
      some (enrichItem [sampleDetail] sampleItem2) ∧
    (enrichItem [sampleDetail] sampleItem2).duration = "PT0S" ∧
    (enrichItem [sampleDetail] sampleItem2).viewCount = "0" :=
  C3_missing_detail_gets_defaults [sampleDetail] [sampleItem2] 0 sampleItem2
    (by decide) (by decide)

/-- C10: on the empty list `renderVideos` takes the early return: the grid
shows the dedicated "no videos found" message and the summary counter is
never written. -/
theorem C10_empty_list_no_videos_state (dateFmt viewsFmt : String → String) :
    renderVideos dateFmt viewsFmt [] =
      some { grid := .noVideosMessage, videosNote := none } := rfl

/-- One successful iteration of the pagination loop on a page that carries
a continuation token. -/
theorem paginationLoop_cons_ok (p : PageResp) (rest : List PageResp)
    (acc : List PlaylistItem) (hok : p.ok = true)
    (htok : jsOrStr p.nextPageToken "" ≠ "") :
    paginationLoop acc (p :: rest) =
      (paginationLoop (acc ++ p.items) rest).map
        fun r => ⟨r.outcome, r.calls + 1, r.leftover⟩ := by
  simp [paginationLoop, hok, htok]

/-- The loop's final iteration: a successful page without continuation
token stops the loop with everything accumulated so far plus that page. -/
theorem paginationLoop_last (last : PageResp) (rest : List PageResp)
    (acc : List PlaylistItem) (hok : last.ok = true)
    (htok : jsOrStr last.nextPageToken "" = "") :
    paginationLoop acc (last :: rest) = some ⟨.ok (acc ++ last.items), 1, rest⟩ := by
  simp [paginationLoop, hok, htok]

/-- A non-success page response makes the loop throw at once. -/
theorem paginationLoop_fail (p : PageResp) (rest : List PageResp)
    (acc : List PlaylistItem) (hfail : p.ok = false) :
    paginationLoop acc (p :: rest) =
      some ⟨.error (.playlistFetch p.status p.statusText), 1, rest⟩ := by
  simp [paginationLoop, hfail]

/-- The loop runs through any prefix of successful token-carrying pages,
appending their batches in order. -/
theorem paginationLoop_append_front (front : List PageResp) (rest : List PageResp)
    (acc : List PlaylistItem)
    (hfront : ∀ p ∈ front, p.ok = true ∧ jsOrStr p.nextPageToken "" ≠ "") :
    paginationLoop acc (front ++ rest) =
      (paginationLoop (acc ++ (front.map PageResp.items).flatten) rest).map
        fun r => ⟨r.outcome, r.calls + front.length, r.leftover⟩ := by
  induction front generalizing acc with
  | nil =>
    simp only [List.nil_append, List.map_nil, List.flatten_nil, List.append_nil,
      List.length_nil]
    cases paginationLoop acc rest <;> rfl
  | cons p front ih =>
    have hp := hfront p (List.mem_cons_self ..)
    rw [List.cons_append, paginationLoop_cons_ok p _ acc hp.1 hp.2,
      ih (acc ++ p.items) fun q hq => hfront q (List.mem_cons_of_mem _ hq),
      Option.map_map]
    simp only [List.map_cons, List.flatten_cons, List.append_assoc, List.length_cons]
    rfl

/-- C1: for a playlist whose membership records span any number of pages —
a front of successful responses each carrying a continuation token,
followed by a successful response without one — the pagination loop
returns exactly the concatenation of all page batches in fetch order,
issues exactly one request per page, and never requests the responses
beyond the first token-less one. -/
theorem C1_pagination_concatenates_all_pages (front : List PageResp)
    (last : PageResp) (rest : List PageResp)
    (hfront : ∀ p ∈ front, p.ok = true ∧ jsOrStr p.nextPageToken "" ≠ "")
    (hok : last.ok = true) (hlast : jsOrStr last.nextPageToken "" = "") :
    paginationLoop [] (front ++ last :: rest) =
      some ⟨.ok (((front ++ [last]).map PageResp.items).flatten),
        front.length + 1, rest⟩ := by
  rw [paginationLoop_append_front front (last :: rest) [] hfront,
    paginationLoop_last last rest _ hok hlast]
  simp [Nat.add_comm]

/-- Witness for C1: a two-page playlist (2 + 1 items), with a third,
never-requested response after the token-less one. -/
theorem C1_witness :
    paginationLoop [] [samplePageMid, samplePageLast, samplePageFail] =
      some ⟨.ok [sampleItem, sampleItem2, sampleItem3], 2, [samplePageFail]⟩ := by
  have h := C1_pagination_concatenates_all_pages [samplePageMid] samplePageLast
    [samplePageFail] (by decide) (by decide) (by decide)
  simpa [samplePageMid, samplePageLast] using h

/-- C4: any non-success response aborts `fetchPlaylistVideos` as a whole.
First conjunct: a failing membership page at any position `k` (so also
`k > 1`) makes the function throw a playlist fetch error carrying that
response's HTTP status — the batches of the `k - 1` already accumulated
pages are discarded, no partial list is returned.  Second conjunct: a
failing batch detail request throws a detail fetch error carrying its HTTP
status, discarding the complete membership accumulation. -/
theorem C4_nonsuccess_aborts_whole_fetch :
    (∀ (front : List PageResp) (p : PageResp) (rest : List PageResp)
      (detail : DetailResp),
      (∀ q ∈ front, q.ok = true ∧ jsOrStr q.nextPageToken "" ≠ "") →
      p.ok = false →
      fetchPlaylistVideos (front ++ p :: rest) detail =
        some (.error (.playlistFetch p.status p.statusText), front.length + 1) ∧
      (FetchError.playlistFetch p.status p.statusText).httpStatus = p.status) ∧
    (∀ (front : List PageResp) (last : PageResp) (rest : List PageResp)
      (detail : DetailResp),
      (∀ q ∈ front, q.ok = true ∧ jsOrStr q.nextPageToken "" ≠ "") →
      last.ok = true → jsOrStr last.nextPageToken "" = "" →
      detail.ok = false →
      fetchPlaylistVideos (front ++ last :: rest) detail =
        some (.error (.videoDetailsFetch detail.status), front.length + 2) ∧
      (FetchError.videoDetailsFetch detail.status).httpStatus = detail.status) := by
  constructor
  · intro front p rest detail hfront hfail
    refine ⟨?_, rfl⟩
    have hp := paginationLoop_append_front front (p :: rest) [] hfront
    rw [paginationLoop_fail p rest _ hfail] at hp
    simp only [Option.map_some'] at hp
    simp [fetchPlaylistVideos, hp, Nat.add_comm]
  · intro front last rest detail hfront hok hlast hdetail
    refine ⟨?_, rfl⟩
    have hp := paginationLoop_append_front front (last :: rest) [] hfront
    rw [paginationLoop_last last rest _ hok hlast] at hp
    simp only [Option.map_some'] at hp
    simp [fetchPlaylistVideos, hp, hdetail]
    omega

/-- Witness for C4: the membership fetch failing on page `k = 2`, and the
detail request failing after a successful two-page accumulation. -/
theorem C4_witness :
    fetchPlaylistVideos [samplePageMid, samplePageFail] sampleDetailResp =
      some (.error (.playlistFetch 404 "Not Found"), 2) ∧
    fetchPlaylistVideos [samplePageMid, samplePageLast] sampleDetailFail =
      some (.error (.videoDetailsFetch 500), 3) := by
  constructor
  · have h := C4_nonsuccess_aborts_whole_fetch.1 [samplePageMid] samplePageFail []
      sampleDetailResp (by decide) (by decide)
    simpa [samplePageFail] using h.1
  · have h := C4_nonsuccess_aborts_whole_fetch.2 [samplePageMid] samplePageLast []
      sampleDetailFail (by decide) (by decide) (by decide) (by decide)
    simpa [sampleDetailFail] using h.1

/-- C7: each of the three precondition checks of `initializePlaylist` —
missing configuration object, falsy or placeholder credential, missing
playlist identifier — renders its descriptive error state and halts with
zero network requests issued. -/
theorem C7_precondition_failures_halt (dateFmt viewsFmt : String → String) (env : Env) :
    (env.config = none →
      initializePlaylist dateFmt viewsFmt env =
        some (.errorShown (showErrorView configMissingMsg env.playlistId), 0)) ∧
    (∀ cfg, env.config = some cfg →
      jsOrStr cfg.YOUTUBE_API_KEY "" = "" ∨ cfg.YOUTUBE_API_KEY = some placeholderApiKey →
      initializePlaylist dateFmt viewsFmt env =
        some (.errorShown (showErrorView apiKeyMissingMsg env.playlistId), 0)) ∧
    (∀ cfg, env.config = some cfg →
      ¬(jsOrStr cfg.YOUTUBE_API_KEY "" = "" ∨ cfg.YOUTUBE_API_KEY = some placeholderApiKey) →
      jsOrStr env.playlistId "" = "" →
      initializePlaylist dateFmt viewsFmt env =
        some (.errorShown (showErrorView playlistIdMissingMsg env.playlistId), 0)) := by
  refine ⟨fun hc => ?_, fun cfg hc hkey => ?_, fun cfg hc hkey hpid => ?_⟩
  · simp [initializePlaylist, hc]
  · simp [initializePlaylist, hc, hkey]
  · simp [initializePlaylist, hc, hkey, hpid]

/-- Witness for C7: the checked-in `config.js` still holding the
placeholder `TU_API_KEY_AQUI` yields the credential-missing error state and
zero network requests, although the response script is nonempty. -/
theorem C7_witness :
    initializePlaylist id id sampleEnv =
      some (.errorShown (showErrorView apiKeyMissingMsg (some "PL123")), 0) := by
  have h := (C7_precondition_failures_halt id id sampleEnv).2.1 CONFIG rfl (Or.inr rfl)
  simpa [sampleEnv] using h

/-- An `Option`-valued `mapM` whose function succeeds on every element
returns a list of the same length whose `i`-th entry is the image of the
`i`-th input. -/
theorem mapM_option_all_isSome {α β : Type} (f : α → Option β) :
    ∀ l : List α, (∀ a ∈ l, (f a).isSome = true) →
      ∃ bs : List β, l.mapM f = some bs ∧ bs.length = l.length ∧
        ∀ i : Nat, bs[i]? = l[i]?.bind f := by
  intro l
  induction l with
  | nil => exact fun _ => ⟨[], rfl, by simp, fun i => by simp⟩
  | cons a t ih =>
    intro h
    obtain ⟨b, hb⟩ := Option.isSome_iff_exists.mp (h a (List.mem_cons_self ..))
    obtain ⟨bs, hbs, hlen, hidx⟩ := ih fun x hx => h x (List.mem_cons_of_mem _ hx)
    refine ⟨b :: bs, ?_, by simp [hlen], fun i => ?_⟩
    · rw [List.mapM_cons, hb, hbs]; rfl
    · cases i with
      | zero => simp [hb]
      | succ n => simpa using hidx n

/-- C8: on a non-empty enriched-video list whose durations the formatter
accepts, `renderVideos` renders exactly one card per entry in original
order and writes the pluralization-correct summary: the singular form for
exactly one video, the plural form otherwise. -/
theorem C8_renders_one_card_per_video (dateFmt viewsFmt : String → String)
    (videos : List EnrichedVideo) (hne : videos ≠ [])
    (hdur : ∀ v ∈ videos, (formatDuration v.duration).isSome = true) :
    ∃ cards : List VideoCard,
      renderVideos dateFmt viewsFmt videos =
        some { grid := .cards cards, videosNote := some (videosNoteText videos.length) } ∧
      cards.length = videos.length ∧
      (∀ i : Nat, cards[i]? = videos[i]?.bind (createVideoCard dateFmt viewsFmt)) ∧
      videosNoteText videos.length =
        (if videos.length = 1 then
          toString videos.length ++ " vídeo en esta lista de reproducción."
        else
          toString videos.length ++ " vídeos en esta lista de reproducción.") := by
  have hsome : ∀ v ∈ videos, (createVideoCard dateFmt viewsFmt v).isSome = true := by
    intro v hv
    simpa [createVideoCard] using hdur v hv
  obtain ⟨cards, hmap, hlen, hidx⟩ :=
    mapM_option_all_isSome (createVideoCard dateFmt viewsFmt) videos hsome
  have hlen0 : videos.length ≠ 0 := by simpa [List.length_eq_zero] using hne
  refine ⟨cards, ?_, hlen, hidx, ?_⟩
  · rw [renderVideos, if_neg hlen0, hmap]
    rfl
  · by_cases h1 : videos.length = 1
    · rw [h1]; rfl
    · rw [if_neg h1, videosNoteText, if_pos h1, String.append_assoc, String.append_assoc]
      have hlit : (" vídeo" ++ ("s" ++ " en esta lista de reproducción.") : String) =
          " vídeos en esta lista de reproducción." := by decide
      rw [hlit]

/-- Witness for C8: a concrete 3-item playlist produces 3 cards and the
summary "3 vídeos en esta lista de reproducción.". -/
theorem C8_witness :
    ∃ cards : List VideoCard,
      renderVideos id id sampleVideos3 =
        some { grid := .cards cards, videosNote := some (videosNoteText sampleVideos3.length) } ∧
      cards.length = sampleVideos3.length ∧
      (∀ i : Nat, cards[i]? = sampleVideos3[i]?.bind (createVideoCard id id)) ∧
      videosNoteText sampleVideos3.length =
        (if sampleVideos3.length = 1 then
          toString sampleVideos3.length ++ " vídeo en esta lista de reproducción."
        else
          toString sampleVideos3.length ++ " vídeos en esta lista de reproducción.") :=
  C8_renders_one_card_per_video id id sampleVideos3 (by decide) (by decide)

/-- The regex scan succeeds exactly on inputs containing the literal `PT`. -/
theorem findPT_isSome_iff (cs : List Char) :
    (findPT cs).isSome = true ↔ containsPT cs := by
  induction cs with
  | nil =>
    simp only [findPT, Option.isSome_none, Bool.false_eq_true, false_iff]
    rintro ⟨l, r, hl⟩
    cases l <;> simp at hl
  | cons c rest ih =>
    by_cases h : c = 'P' ∧ rest.head? = some 'T'
    · obtain ⟨hc, ht⟩ := h
      subst hc
      obtain ⟨t, rfl⟩ : ∃ t, rest = 'T' :: t := by
        cases rest with
        | nil => simp at ht
        | cons a t =>
          simp only [List.head?_cons, Option.some.injEq] at ht
          exact ⟨t, by rw [ht]⟩
      constructor
      · exact fun _ => ⟨[], t, rfl⟩
      · intro _
        simp [findPT]
    · have hstep : findPT (c :: rest) = findPT rest := by
        rw [findPT, if_neg h]
      rw [hstep, ih]
      constructor
      · exact fun ⟨l, r, hl⟩ => ⟨c :: l, r, by simp [hl]⟩
      · rintro ⟨l, r, hl⟩
        cases l with
        | nil =>
          obtain ⟨h1, h2⟩ := List.cons.injEq .. ▸ hl
          exact absurd ⟨h1, by rw [h2]; rfl⟩ h
        | cons a l' =>
          obtain ⟨-, h2⟩ := List.cons.injEq .. ▸ hl
          exact ⟨l', r, h2⟩

/-- C9: `formatDuration` is partial.  It returns a value exactly on the
strings that contain the literal `PT` (on any other string the regex match
is `null` and indexing it throws), and the in-repository caller is safe
when the provider's duration strings contain `PT`, because an absent or
empty duration is replaced by the default `PT0S` during the join, before
any formatting happens. -/
theorem C9_formatDuration_partiality :
    (∀ s : String, (formatDuration s).isSome = true ↔ containsPT s.data) ∧
    (∀ s : String, formatDuration s = none ↔ ¬containsPT s.data) ∧
    (∀ (details : List VideoDetail) (item : PlaylistItem),
      (∀ v ∈ details, ∀ d, v.duration = some d → d ≠ "" → containsPT d.data) →
      containsPT (enrichItem details item).duration.data) := by
  have hiff : ∀ s : String, (formatDuration s).isSome = true ↔ containsPT s.data := by
    intro s
    rw [← findPT_isSome_iff]
    simp [formatDuration, formatDurationL, matchDuration]
  refine ⟨hiff, fun s => ?_, fun details item hall => ?_⟩
  · rw [← Option.not_isSome_iff_eq_none, ← hiff s]
  · have hPT0S : containsPT ("PT0S" : String).data := ⟨[], ['0', 'S'], by decide⟩
    cases hfind : details.find? fun v => v.id = item.videoId with
    | none => simpa [enrichItem, hfind, jsOrStr] using hPT0S
    | some v =>
      have hv : v ∈ details := List.mem_of_find?_eq_some hfind
      cases hd : v.duration with
      | none => simpa [enrichItem, hfind, hd, jsOrStr] using hPT0S
      | some d =>
        by_cases hde : d = ""
        · simpa [enrichItem, hfind, hd, hde, jsOrStr] using hPT0S
        · simpa [enrichItem, hfind, hd, hde, jsOrStr] using hall v hv d hd hde

/-- Witness for C9: the default duration `PT0S` is accepted by the
formatter, and enrichment against an empty detail response produces a
`PT`-containing duration. -/
theorem C9_witness :
    (formatDuration "PT0S").isSome = true ∧
    containsPT (enrichItem [] sampleItem).duration.data := by
  constructor
  · exact (C9_formatDuration_partiality.1 "PT0S").mpr ⟨[], ['0', 'S'], by decide⟩
  · exact C9_formatDuration_partiality.2.2 [] sampleItem (by simp)

/-- The pattern succeeds at index 0 of a string starting with `PT`. -/
theorem findPT_PT (body : List Char) : findPT ('P' :: 'T' :: body) = some body := by
  simp [findPT]

/-- A maximal digit run followed by a non-digit splits `takeWhile`/`dropWhile`. -/
theorem takeWhile_digits (d : List Char) (u : Char) (rest : List Char)
    (hd : ∀ c ∈ d, Char.isDigit c = true) (hu : Char.isDigit u = false) :
    (d ++ u :: rest).takeWhile Char.isDigit = d ∧
    (d ++ u :: rest).dropWhile Char.isDigit = u :: rest := by
  induction d with
  | nil => simp [List.takeWhile_cons, List.dropWhile_cons, hu]
  | cons a t ih =>
    have ha := hd a (List.mem_cons_self ..)
    obtain ⟨h1, h2⟩ := ih fun c hc => hd c (List.mem_cons_of_mem _ hc)
    simp [List.takeWhile_cons, List.dropWhile_cons, ha, h1, h2]

/-- A group `(\d+U)?` captures a nonempty digit run followed by its unit letter. -/
theorem optGroup_present (unit : Char) (d rest : List Char)
    (hne : d ≠ []) (hd : ∀ c ∈ d, Char.isDigit c = true)
    (hu : Char.isDigit unit = false) :
    optGroup unit (d ++ unit :: rest) = (some (d ++ [unit]), rest) := by
  obtain ⟨h1, h2⟩ := takeWhile_digits d unit rest hd hu
  simp [optGroup, h1, h2, hne]

/-- A group `(\d+U)?` does not capture when the letter after the digit run differs
from its unit, and consumes nothing. -/
theorem optGroup_skip (unit u' : Char) (d rest : List Char)
    (hd : ∀ c ∈ d, Char.isDigit c = true) (hu' : Char.isDigit u' = false)
    (hne : u' ≠ unit) :
    optGroup unit (d ++ u' :: rest) = (none, d ++ u' :: rest) := by
  obtain ⟨h1, h2⟩ := takeWhile_digits d u' rest hd hu'
  simp [optGroup, h1, h2, hne]

/-- Removing the first occurrence of the unit letter from a captured group
recovers the digits. -/
theorem replaceFirst_digits (u : Char) (d : List Char)
    (hd : ∀ c ∈ d, Char.isDigit c = true) (hu : Char.isDigit u = false) :
    replaceFirst u (d ++ [u]) = d := by
  induction d with
  | nil => simp [replaceFirst]
  | cons a t ih =>
    have ha : a ≠ u := by
      intro h
      exact absurd (h ▸ hd a (List.mem_cons_self ..)) (by simp [hu])
    simp [replaceFirst, ha, ih fun c hc => hd c (List.mem_cons_of_mem _ hc)]

/-- A group `(\d+U)?` on an empty remainder: no capture. -/
theorem optGroup_nil (unit : Char) : optGroup unit [] = (none, []) := rfl

/-- The three capture groups on a well-formed compact duration encoding. -/
theorem matchDuration_encode (h m s : Option (List Char))
    (hh : wfComp h) (hm : wfComp m) (hs : wfComp s) :
    matchDuration (encodeDuration h m s) =
      some (h.map (· ++ ['H']), m.map (· ++ ['M']), s.map (· ++ ['S'])) := by
  rcases h with - | hd <;> rcases m with - | md <;> rcases s with - | sd
  · decide
  · obtain ⟨hnes, hdigs⟩ := hs sd rfl
    have e1 := optGroup_skip 'H' 'S' sd [] hdigs (by decide) (by decide)
    have e2 := optGroup_skip 'M' 'S' sd [] hdigs (by decide) (by decide)
    have e3 := optGroup_present 'S' sd [] hnes hdigs (by decide)
    simp [matchDuration, encodeDuration, optComp, findPT_PT, optGroup_nil, e1, e2, e3]
  · obtain ⟨hnem, hdigm⟩ := hm md rfl
    have e1 := optGroup_skip 'H' 'M' md [] hdigm (by decide) (by decide)
    have e2 := optGroup_present 'M' md [] hnem hdigm (by decide)
    simp [matchDuration, encodeDuration, optComp, findPT_PT, optGroup_nil, e1, e2]
  · obtain ⟨hnem, hdigm⟩ := hm md rfl
    obtain ⟨hnes, hdigs⟩ := hs sd rfl
    have e1 := optGroup_skip 'H' 'M' md (sd ++ ['S']) hdigm (by decide) (by decide)
    have e2 := optGroup_present 'M' md (sd ++ ['S']) hnem hdigm (by decide)
    have e3 := optGroup_present 'S' sd [] hnes hdigs (by decide)
    simp [matchDuration, encodeDuration, optComp, findPT_PT, optGroup_nil, e1, e2, e3]
  · obtain ⟨hneh, hdigh⟩ := hh hd rfl
    have e1 := optGroup_present 'H' hd [] hneh hdigh (by decide)
    simp [matchDuration, encodeDuration, optComp, findPT_PT, optGroup_nil, e1]
  · obtain ⟨hneh, hdigh⟩ := hh hd rfl
    obtain ⟨hnes, hdigs⟩ := hs sd rfl
    have e1 := optGroup_present 'H' hd (sd ++ ['S']) hneh hdigh (by decide)
    have e2 := optGroup_skip 'M' 'S' sd [] hdigs (by decide) (by decide)
    have e3 := optGroup_present 'S' sd [] hnes hdigs (by decide)
    simp [matchDuration, encodeDuration, optComp, findPT_PT, optGroup_nil, e1, e2, e3]
  · obtain ⟨hneh, hdigh⟩ := hh hd rfl
    obtain ⟨hnem, hdigm⟩ := hm md rfl
    have e1 := optGroup_present 'H' hd (md ++ ['M']) hneh hdigh (by decide)
    have e2 := optGroup_present 'M' md [] hnem hdigm (by decide)
    simp [matchDuration, encodeDuration, optComp, findPT_PT, optGroup_nil, e1, e2]
  · obtain ⟨hneh, hdigh⟩ := hh hd rfl
    obtain ⟨hnem, hdigm⟩ := hm md rfl
    obtain ⟨hnes, hdigs⟩ := hs sd rfl
    have e1 := optGroup_present 'H' hd (md ++ 'M' :: (sd ++ ['S'])) hneh hdigh (by decide)
    have e2 := optGroup_present 'M' md (sd ++ ['S']) hnem hdigm (by decide)
    have e3 := optGroup_present 'S' sd [] hnes hdigs (by decide)
    simp [matchDuration, encodeDuration, optComp, findPT_PT, optGroup_nil, e1, e2, e3]

/-- The formatter (list level) on a well-formed compact encoding:
`H:MM:SS` when hours are present, `M:SS` otherwise. -/
theorem formatDurationL_encode (h m s : Option (List Char))
    (hh : wfComp h) (hm : wfComp m) (hs : wfComp s) :
    formatDurationL (encodeDuration h m s) =
      some (match h with
        | some hd => hd ++ ':' :: padStart2 (m.getD []) ++ ':' :: padStart2 (s.getD [])
        | none => m.getD ['0'] ++ ':' :: padStart2 (s.getD [])) := by
  rw [formatDurationL, matchDuration_encode h m s hh hm hs]
  rcases h with - | hd <;> rcases m with - | md <;> rcases s with - | sd
  · rfl
  · obtain ⟨hnes, hdigs⟩ := hs sd rfl
    simp [replaceFirst, replaceFirst_digits 'S' sd hdigs (by decide)]
  · obtain ⟨hnem, hdigm⟩ := hm md rfl
    simp [replaceFirst, replaceFirst_digits 'M' md hdigm (by decide), hnem]
  · obtain ⟨hnem, hdigm⟩ := hm md rfl
    obtain ⟨hnes, hdigs⟩ := hs sd rfl
    simp [replaceFirst, replaceFirst_digits 'M' md hdigm (by decide),
      replaceFirst_digits 'S' sd hdigs (by decide), hnem]
  · obtain ⟨hneh, hdigh⟩ := hh hd rfl
    simp [replaceFirst, replaceFirst_digits 'H' hd hdigh (by decide), hneh]
  · obtain ⟨hneh, hdigh⟩ := hh hd rfl
    obtain ⟨hnes, hdigs⟩ := hs sd rfl
    simp [replaceFirst, replaceFirst_digits 'H' hd hdigh (by decide),
      replaceFirst_digits 'S' sd hdigs (by decide), hneh]
  · obtain ⟨hneh, hdigh⟩ := hh hd rfl
    obtain ⟨hnem, hdigm⟩ := hm md rfl
    simp [replaceFirst, replaceFirst_digits 'H' hd hdigh (by decide),
      replaceFirst_digits 'M' md hdigm (by decide), hneh]
  · obtain ⟨hneh, hdigh⟩ := hh hd rfl
    obtain ⟨hnem, hdigm⟩ := hm md rfl
    obtain ⟨hnes, hdigs⟩ := hs sd rfl
    simp [replaceFirst_digits 'H' hd hdigh (by decide),
      replaceFirst_digits 'M' md hdigm (by decide),
      replaceFirst_digits 'S' sd hdigs (by decide), hneh]

/-- An absent component is well-formed. -/
theorem wfComp_none : wfComp none := fun _ hd => nomatch hd

/-- A nonempty digit string is a well-formed component. -/
theorem wfComp_some (d : List Char) (h1 : d ≠ [])
    (h2 : ∀ c ∈ d, Char.isDigit c = true) : wfComp (some d) := by
  intro d' hd'
  injection hd' with h
  subst h
  exact ⟨h1, h2⟩

/-- C5: on every compact duration encoding with optional
hours/minutes/seconds components (each a nonempty digit string when
present), `formatDuration` returns `H:MM:SS` when an hours component is
present — minutes and seconds zero-padded to two digits — and `M:SS`
otherwise, the minutes defaulting to `0` when absent and not padded, the
seconds zero-padded. -/
theorem C5_duration_formatting (h m s : Option (List Char))
    (hh : wfComp h) (hm : wfComp m) (hs : wfComp s) :
    formatDuration (encodeDuration h m s).asString =
      some (match h with
        | some hd =>
          (hd ++ ':' :: padStart2 (m.getD []) ++ ':' :: padStart2 (s.getD [])).asString
        | none => (m.getD ['0'] ++ ':' :: padStart2 (s.getD [])).asString) := by
  rw [formatDuration]
  have hdata : (encodeDuration h m s).asString.data = encodeDuration h m s := rfl
  rw [hdata, formatDurationL_encode h m s hh hm hs]
  rcases h with - | hd <;> rfl

/-- Witness for C5: the four example encodings of the specification. -/
theorem C5_witness :
    formatDuration "PT2H15M33S" = some "2:15:33" ∧
    formatDuration "PT15M33S" = some "15:33" ∧
    formatDuration "PT33S" = some "0:33" ∧
    formatDuration "PT0S" = some "0:00" := by
  refine ⟨?_, ?_, ?_, ?_⟩
  · have h := C5_duration_formatting (some ['2']) (some ['1', '5']) (some ['3', '3'])
      (wfComp_some _ (by decide) (by decide)) (wfComp_some _ (by decide) (by decide))
      (wfComp_some _ (by decide) (by decide))
    have e : ("PT2H15M33S" : String) =
        (encodeDuration (some ['2']) (some ['1', '5']) (some ['3', '3'])).asString := by decide
    rw [e, h]
    decide
  · have h := C5_duration_formatting none (some ['1', '5']) (some ['3', '3'])
      wfComp_none (wfComp_some _ (by decide) (by decide))
      (wfComp_some _ (by decide) (by decide))
    have e : ("PT15M33S" : String) =
        (encodeDuration none (some ['1', '5']) (some ['3', '3'])).asString := by decide
    rw [e, h]
    decide
  · have h := C5_duration_formatting none none (some ['3', '3'])
      wfComp_none wfComp_none (wfComp_some _ (by decide) (by decide))
    have e : ("PT33S" : String) =
        (encodeDuration none none (some ['3', '3'])).asString := by decide
    rw [e, h]
    decide
  · have h := C5_duration_formatting none none (some ['0'])
      wfComp_none wfComp_none (wfComp_some _ (by decide) (by decide))
    have e : ("PT0S" : String) = (encodeDuration none none (some ['0'])).asString := by decide
    rw [e, h]
    decide

/-- The head of a `dropWhile` never satisfies the dropped predicate. -/
theorem head?_dropWhile_false {α : Type} (p : α → Bool) (l : List α) :
    ∀ c, (l.dropWhile p).head? = some c → p c = false := by
  induction l with
  | nil => intro c hc; simp [List.dropWhile] at hc
  | cons a t ih =>
    intro c hc
    by_cases hp : p a
    · rw [List.dropWhile_cons, if_pos hp] at hc
      exact ih c hc
    · rw [List.dropWhile_cons, if_neg hp] at hc
      simp only [List.head?_cons, Option.some.injEq] at hc
      subst hc
      cases hpa : p a
      · rfl
      · exact absurd hpa hp

/-- Splitting off the whitespace suffix: dropping the leading whitespace
leaves the fully trimmed core followed by the trailing whitespace run. -/
theorem dropWhile_trim_decomp (l : List Char) :
    l.dropWhile jsWhitespace =
      jsTrim l ++ ((l.dropWhile jsWhitespace).reverse.takeWhile jsWhitespace).reverse := by
  conv_lhs =>
    rw [← List.reverse_reverse (l.dropWhile jsWhitespace),
      ← List.takeWhile_append_dropWhile (p := jsWhitespace)
        (l := (l.dropWhile jsWhitespace).reverse)]
  rw [List.reverse_append]
  rfl

/-- Every character list splits as whitespace prefix, trimmed core, and
whitespace suffix. -/
theorem trim_decomp (l : List Char) :
    l = l.takeWhile jsWhitespace ++
      (jsTrim l ++ ((l.dropWhile jsWhitespace).reverse.takeWhile jsWhitespace).reverse) := by
  conv_lhs => rw [← List.takeWhile_append_dropWhile (p := jsWhitespace) (l := l)]
  rw [← dropWhile_trim_decomp]

/-- C6 counterexample: `truncateText` uses JavaScript `trim()`, which also
removes *leading* whitespace from the cut text, and the trimming can make
the kept prefix shorter than the maximum.  On `" abcd"` with maximum 3 the
code returns `"ab..."`, while cutting to 3 characters and trimming only
trailing whitespace would give `" ab..."`; and on `"ab cdef"` with maximum
3 the part before the marker has 2 characters, not exactly 3. -/
theorem C6_counterexample :
    truncateText " abcd" 3 = "ab..." ∧
    truncateTextTrailingOnly (" abcd" : String).data 3 = (" ab..." : String).data ∧
    truncateTextL (" abcd" : String).data 3 ≠ truncateTextTrailingOnly (" abcd" : String).data 3 ∧
    (truncateText "ab cdef" 3).data.length ≠ 3 + 3 := by
  refine ⟨by decide, by decide, by decide, by decide⟩

/-- C6 (amended): text at or under the maximum length is returned
unchanged; longer text is cut to the maximum length, whitespace is trimmed
from *both* ends of the cut (so the kept core may be shorter than the
maximum), and the ellipsis marker is appended. -/
theorem C6_truncation_amended (text : List Char) (maxLength : Nat) :
    (text.length ≤ maxLength → truncateTextL text maxLength = text) ∧
    (maxLength < text.length →
      ∃ pre core suf,
        text.take maxLength = pre ++ core ++ suf ∧
        (∀ c ∈ pre, jsWhitespace c = true) ∧
        (∀ c ∈ suf, jsWhitespace c = true) ∧
        (∀ c, core.head? = some c → jsWhitespace c = false) ∧
        (∀ c, core.getLast? = some c → jsWhitespace c = false) ∧
        truncateTextL text maxLength = core ++ ['.', '.', '.']) := by
  constructor
  · intro hle
    simp [truncateTextL, hle]
  · intro hlt
    have hnle : ¬text.length ≤ maxLength := not_le.mpr hlt
    refine ⟨(text.take maxLength).takeWhile jsWhitespace,
      jsTrim (text.take maxLength),
      (((text.take maxLength).dropWhile jsWhitespace).reverse.takeWhile jsWhitespace).reverse,
      ?_, ?_, ?_, ?_, ?_, ?_⟩
    · rw [List.append_assoc]
      exact trim_decomp (text.take maxLength)
    · exact fun c hc => List.mem_takeWhile_imp hc
    · intro c hc
      rw [List.mem_reverse] at hc
      exact List.mem_takeWhile_imp hc
    · intro c hc
      have hco : jsTrim (text.take maxLength) ≠ [] := by
        intro hemp
        rw [hemp] at hc
        simp at hc
      have h1 : ((text.take maxLength).dropWhile jsWhitespace).head? = some c := by
        rw [dropWhile_trim_decomp (text.take maxLength),
          List.head?_append_of_ne_nil _ hco]
        exact hc
      exact head?_dropWhile_false jsWhitespace (text.take maxLength) c h1
    · intro c hc
      have h1 : (((text.take maxLength).dropWhile jsWhitespace).reverse.dropWhile
          jsWhitespace).head? = some c := by
        rw [← List.getLast?_reverse]
        exact hc
      exact head?_dropWhile_false jsWhitespace _ c h1
    · simp [truncateTextL, hnle]

/-- Witness for C6 (amended) at concrete inputs: `"hi"` is unchanged under
maximum 5, and `"hello world"` under maximum 6 is cut, trimmed and given
the marker. -/
theorem C6_witness :
    (truncateTextL ("hi" : String).data 5 = ("hi" : String).data) ∧
    (∃ pre core suf,
      ("hello world" : String).data.take 6 = pre ++ core ++ suf ∧
      (∀ c ∈ pre, jsWhitespace c = true) ∧
      (∀ c ∈ suf, jsWhitespace c = true) ∧
      (∀ c, core.head? = some c → jsWhitespace c = false) ∧
      (∀ c, core.getLast? = some c → jsWhitespace c = false) ∧
      truncateTextL ("hello world" : String).data 6 = core ++ ['.', '.', '.']) :=
  ⟨(C6_truncation_amended ("hi" : String).data 5).1 (by decide),
   (C6_truncation_amended ("hello world" : String).data 6).2 (by decide)⟩

end Ebo
